import Mathlib

/-!
Verification development for the PhoneAgent device-fleet orchestration layer.

The Python source is shallowly embedded as pure Lean functions:
dictionaries become association lists (`List (K × V)` with first-match lookup),
`datetime` values become `Int` timestamps, and each method of
`server/services/port_manager.py`, `server/services/device_scanner.py`,
`server/services/agent_service.py` and `server/database/crud.py` that the
claims mention is translated into an explicit state-passing function.
-/

namespace PhoneAgent

/-! ## Association-list model of a Python dict

Python dicts are insertion-ordered maps with unique keys.  `dlookup` is
first-match lookup, `dinsert` is `d[k] = v` (replace in place when the key is
present, append otherwise), `derase` is `del d[k]` (no error when absent,
matching the guarded deletes in the source). -/

section Dict

variable {K V : Type} [DecidableEq K]

def dlookup (k : K) : List (K × V) → Option V
  | [] => none
  | kv :: rest => if kv.1 = k then some kv.2 else dlookup k rest

def dreplace (k : K) (v : V) : List (K × V) → List (K × V)
  | [] => []
  | kv :: rest => if kv.1 = k then (k, v) :: dreplace k v rest else kv :: dreplace k v rest

def dinsert (k : K) (v : V) (l : List (K × V)) : List (K × V) :=
  if (dlookup k l).isSome then dreplace k v l else l ++ [(k, v)]

def derase (k : K) : List (K × V) → List (K × V)
  | [] => []
  | kv :: rest => if kv.1 = k then derase k rest else kv :: derase k rest

def dkeys (l : List (K × V)) : List K := l.map Prod.fst

def NodupKeys (l : List (K × V)) : Prop := (dkeys l).Nodup

@[simp]
theorem dlookup_nil (k : K) : dlookup (V := V) k [] = none := rfl

@[simp]
theorem dlookup_cons (k : K) (kv : K × V) (l : List (K × V)) :
    dlookup k (kv :: l) = if kv.1 = k then some kv.2 else dlookup k l := rfl

theorem dlookup_derase_self (k : K) (l : List (K × V)) :
    dlookup k (derase k l) = none := by
  induction l with
  | nil => rfl
  | cons kv rest ih =>
    by_cases h : kv.1 = k
    · simpa [derase, h] using ih
    · simpa [derase, h] using ih

theorem dlookup_derase_ne {k k' : K} (l : List (K × V)) (h : k' ≠ k) :
    dlookup k' (derase k l) = dlookup k' l := by
  induction l with
  | nil => rfl
  | cons kv rest ih =>
    by_cases hk : kv.1 = k
    · have h2 : k ≠ k' := fun he => h he.symm
      simp [derase, hk, h2, ih]
    · simp [derase, hk, ih]

theorem dlookup_dreplace_self {k : K} {v : V} {l : List (K × V)} :
    (dlookup k l).isSome → dlookup k (dreplace k v l) = some v := by
  induction l with
  | nil => intro h; simp [dlookup] at h
  | cons kv rest ih =>
    intro h
    by_cases hk : kv.1 = k
    · simp [dreplace, hk]
    · simp [dreplace, hk] at h ⊢
      exact ih h

theorem dlookup_dreplace_ne {k k' : K} {v : V} (l : List (K × V)) (h : k' ≠ k) :
    dlookup k' (dreplace k v l) = dlookup k' l := by
  induction l with
  | nil => rfl
  | cons kv rest ih =>
    by_cases hk : kv.1 = k
    · have h1 : k ≠ k' := fun he => h he.symm
      have h2 : kv.1 ≠ k' := by rw [hk]; exact h1
      simp [dreplace, hk, h1, h2, ih]
    · simp [dreplace, hk, ih]

theorem dlookup_append_none {k : K} {l m : List (K × V)} (h : dlookup k l = none) :
    dlookup k (l ++ m) = dlookup k m := by
  induction l with
  | nil => rfl
  | cons kv rest ih =>
    by_cases hk : kv.1 = k
    · simp [hk] at h
    · simp [hk] at h ⊢
      exact ih h

theorem isSome_eq_false_iff {α : Type} {o : Option α} : o.isSome = false ↔ o = none := by
  cases o <;> simp

theorem dlookup_dinsert_self (k : K) (v : V) (l : List (K × V)) :
    dlookup k (dinsert k v l) = some v := by
  unfold dinsert
  by_cases h : (dlookup k l).isSome
  · rw [if_pos h]
    exact dlookup_dreplace_self h
  · rw [if_neg h]
    have hnone : dlookup k l = none := by
      rw [← isSome_eq_false_iff]
      simpa using h
    rw [dlookup_append_none hnone]
    simp [dlookup]

theorem dlookup_append_single_ne {k k' : K} {v : V} (l : List (K × V)) (h : k' ≠ k) :
    dlookup k' (l ++ [(k, v)]) = dlookup k' l := by
  induction l with
  | nil =>
    have h1 : ¬ k = k' := fun he => h he.symm
    simp [dlookup, h1]
  | cons kv rest ih =>
    by_cases hk : kv.1 = k'
    · simp [hk]
    · simp [hk, ih]

theorem dlookup_dinsert_ne {k k' : K} (v : V) (l : List (K × V)) (h : k' ≠ k) :
    dlookup k' (dinsert k v l) = dlookup k' l := by
  unfold dinsert
  by_cases hs : (dlookup k l).isSome
  · rw [if_pos hs]
    exact dlookup_dreplace_ne l h
  · rw [if_neg hs]
    exact dlookup_append_single_ne l h

theorem dlookup_none_iff_not_mem_keys {k : K} {l : List (K × V)} :
    dlookup k l = none ↔ k ∉ dkeys l := by
  induction l with
  | nil => simp [dlookup, dkeys]
  | cons kv rest ih =>
    by_cases hk : kv.1 = k
    · simp [dkeys, hk]
    · have h1 : ¬ k = kv.1 := fun he => hk he.symm
      simp only [dlookup_cons, if_neg hk, dkeys, List.map_cons, List.mem_cons]
      constructor
      · intro hnone hmem
        rcases hmem with he | hm
        · exact h1 he
        · exact (ih.mp hnone) (by simpa [dkeys] using hm)
      · intro hnot
        apply ih.mpr
        intro hm
        exact hnot (Or.inr (by simpa [dkeys] using hm))

theorem mem_of_dlookup_eq_some {k : K} {v : V} {l : List (K × V)}
    (h : dlookup k l = some v) : (k, v) ∈ l := by
  induction l with
  | nil => simp [dlookup] at h
  | cons kv rest ih =>
    obtain ⟨a, b⟩ := kv
    by_cases hk : a = k
    · simp [hk] at h
      subst hk
      subst h
      exact List.mem_cons_self _ _
    · simp [hk] at h
      exact List.mem_cons_of_mem _ (ih h)

theorem dlookup_eq_some_of_mem {k : K} {v : V} {l : List (K × V)}
    (hnd : NodupKeys l) (hm : (k, v) ∈ l) : dlookup k l = some v := by
  induction l with
  | nil => simp at hm
  | cons kv rest ih =>
    obtain ⟨a, b⟩ := kv
    have hcons : a ∉ dkeys rest ∧ (dkeys rest).Nodup := by
      have hx : (a :: dkeys rest).Nodup := by simpa [NodupKeys, dkeys] using hnd
      exact List.nodup_cons.mp hx
    rcases List.mem_cons.mp hm with h | h
    · obtain ⟨h1, h2⟩ := Prod.ext_iff.mp h
      simp only at h1 h2
      subst h1
      subst h2
      simp
    · have hk : a ≠ k := by
        intro he
        apply hcons.1
        rw [he]
        have : (k, v).1 ∈ rest.map Prod.fst := List.mem_map_of_mem Prod.fst h
        simpa [dkeys] using this
      simp [hk]
      exact ih hcons.2 h

theorem dkeys_dreplace (k : K) (v : V) (l : List (K × V)) :
    dkeys (dreplace k v l) = dkeys l := by
  induction l with
  | nil => rfl
  | cons kv rest ih =>
    by_cases hk : kv.1 = k
    · simp [dreplace, dkeys, hk] at *
      exact ih
    · simp [dreplace, dkeys, hk] at *
      exact ih

theorem nodupKeys_dinsert {k : K} {v : V} {l : List (K × V)} (h : NodupKeys l) :
    NodupKeys (dinsert k v l) := by
  unfold dinsert
  by_cases hs : (dlookup k l).isSome
  · rw [if_pos hs]
    unfold NodupKeys
    rw [dkeys_dreplace]
    exact h
  · rw [if_neg hs]
    have hnone : dlookup k l = none := by
      rw [← isSome_eq_false_iff]
      simpa using hs
    have hk : k ∉ dkeys l := dlookup_none_iff_not_mem_keys.mp hnone
    unfold NodupKeys at *
    have heq : dkeys (l ++ [(k, v)]) = dkeys l ++ [k] := by simp [dkeys]
    rw [heq]
    simp [List.nodup_append]
    exact ⟨h, hk⟩

theorem dkeys_derase_sublist (k : K) (l : List (K × V)) :
    List.Sublist (dkeys (derase k l)) (dkeys l) := by
  induction l with
  | nil => simp [derase, dkeys]
  | cons kv rest ih =>
    by_cases hk : kv.1 = k
    · simp only [derase, hk, if_pos rfl]
      exact List.Sublist.cons _ ih
    · simp only [derase, hk, if_neg hk, dkeys, List.map_cons]
      exact List.Sublist.cons₂ _ ih

theorem nodupKeys_derase {k : K} {l : List (K × V)} (h : NodupKeys l) :
    NodupKeys (derase k l) :=
  List.Nodup.sublist (dkeys_derase_sublist k l) h

end Dict

/-! ## Python truthiness helpers

`allocate_port` and `release_port` test optional arguments with `if x:`,
which treats `None`, the empty string and the integer `0` alike as absent. -/

def strTruthy : Option String → Bool
  | some s => s ≠ ""
  | none => false

def natTruthy : Option Nat → Bool
  | some n => n ≠ 0
  | none => false

/-- Python `x or y` for strings: the empty string falls through to `y`. -/
def pyOrStr (x : Option String) (y : String) : String :=
  match x with
  | some s => if s = "" then y else s
  | none => y

/-! ## Port Allocator (`server/services/port_manager.py`, class `PortManager`)

State: `port_allocations : Dict[int, dict]` mapping a port to the record
`{device_id, device_name, allocated_at}` and `device_ports : Dict[str, int]`
mapping a device id to its port.  Timestamps (`datetime.now()`) are modelled
as `Int` values supplied by the caller.  Every public method runs under a
single exclusive lock, so each call is one atomic state transition. -/

structure Alloc where
  device_id : String
  device_name : String
  allocated_at : Int
deriving DecidableEq, Repr

structure PMState where
  port_allocations : List (Nat × Alloc)
  device_ports : List (String × Nat)
deriving DecidableEq, Repr

def PMState.init : PMState := ⟨[], []⟩

/-- `PortManager._release_port_internal`: delete the port's allocation record
and, when present, the owning device's entry in `device_ports`; return whether
a lease was actually removed. -/
def releasePortInternal (s : PMState) (port : Nat) : PMState × Bool :=
  match dlookup port s.port_allocations with
  | some alloc =>
    (⟨derase port s.port_allocations, derase alloc.device_id s.device_ports⟩, true)
  | none => (s, false)

def occupiedMsg (port : Nat) (dev : String) : String :=
  "Port " ++ toString port ++ " is already occupied by device " ++ dev ++
    ". Use force=True to kick out the existing device."

def allocatedMsg (port : Nat) : String :=
  "Port " ++ toString port ++ " successfully allocated"

def alreadyOwnMsg (port : Nat) : String :=
  "Port " ++ toString port ++ " already allocated to this device"

/-- The final binding step of `PortManager.allocate_port` (lines 88-97):
record the allocation and the reverse mapping. -/
def bindPort (s : PMState) (device_id : String) (requested_port : Nat)
    (device_name : Option String) (now : Int) : PMState × Bool × String :=
  (⟨dinsert requested_port ⟨device_id, pyOrStr device_name device_id, now⟩ s.port_allocations,
    dinsert device_id requested_port s.device_ports⟩,
   true, allocatedMsg requested_port)

/-- `PortManager.allocate_port` after the requesting device's own old lease
has been handled (lines 66-97): occupied and `force` → tear down the prior
lease then bind; occupied without `force` → fail, returning the state as it
stands at this point; free → bind. -/
def allocateAfterDeviceCheck (s : PMState) (device_id : String) (requested_port : Nat)
    (device_name : Option String) (force : Bool) (now : Int) : PMState × Bool × String :=
  match dlookup requested_port s.port_allocations with
  | some existing =>
    if force then
      bindPort (releasePortInternal s requested_port).1 device_id requested_port device_name now
    else
      (s, false, occupiedMsg requested_port existing.device_id)
  | none => bindPort s device_id requested_port device_name now

/-- `PortManager.allocate_port` (lines 35-97).  If the requesting device
already holds a port: same port → idempotent success; different port → its
old lease is released first (lines 56-64) and the allocation proceeds on the
mutated state. -/
def allocate_port (s : PMState) (device_id : String) (requested_port : Nat)
    (device_name : Option String) (force : Bool) (now : Int) : PMState × Bool × String :=
  match dlookup device_id s.device_ports with
  | some old_port =>
    if old_port = requested_port then
      (s, true, alreadyOwnMsg requested_port)
    else
      allocateAfterDeviceCheck (releasePortInternal s old_port).1
        device_id requested_port device_name force now
  | none => allocateAfterDeviceCheck s device_id requested_port device_name force now

/-- `PortManager.release_port` (lines 99-124).  Python tests the optional
arguments with `if device_id:` / `elif port:`, so an empty device id and
port number `0` both fall through to the failure branch. -/
def release_port (s : PMState) (device_id : Option String) (port : Option Nat) :
    PMState × Bool :=
  if strTruthy device_id then
    match dlookup (device_id.getD "") s.device_ports with
    | none => (s, false)
    | some p => releasePortInternal s p
  else if natTruthy port then
    releasePortInternal s (port.getD 0)
  else
    (s, false)

/-- `PortManager.cleanup_stale_allocations` (lines 165-183): collect every
port whose allocation is older than `maxAge` seconds, then force-release each
one via `_release_port_internal`. -/
def cleanup_stale_allocations (s : PMState) (now maxAge : Int) : PMState :=
  let stale := s.port_allocations.filter (fun pa => now - pa.2.allocated_at > maxAge)
  stale.foldl (fun st pa => (releasePortInternal st pa.1).1) s

/-- One mutating call to the allocator. -/
inductive PMOp where
  | alloc (device_id : String) (port : Nat) (device_name : Option String)
      (force : Bool) (now : Int)
  | release (device_id : Option String) (port : Option Nat)
  | cleanup (now maxAge : Int)

def PMOp.apply : PMOp → PMState → PMState
  | .alloc d p n f t, s => (allocate_port s d p n f t).1
  | .release d p, s => (release_port s d p).1
  | .cleanup t m, s => cleanup_stale_allocations s t m

/-- State reached from the empty allocator by a sequence of calls. -/
def runPM (ops : List PMOp) : PMState :=
  ops.foldl (fun s op => op.apply s) PMState.init

/-- The two dictionaries are mutual inverses: `device_ports` sends `d` to `p`
exactly when `port_allocations` holds a record at `p` whose `device_id` is
`d`. -/
def Inverse (s : PMState) : Prop :=
  ∀ d p, dlookup d s.device_ports = some p ↔
    (dlookup p s.port_allocations).map Alloc.device_id = some d

/-- Well-formedness: both dicts have unique keys (they model Python dicts)
and are mutual inverses. -/
def PMWF (s : PMState) : Prop :=
  NodupKeys s.port_allocations ∧ NodupKeys s.device_ports ∧ Inverse s

theorem pmwf_init : PMWF PMState.init := by
  refine ⟨by simp [NodupKeys, dkeys, PMState.init], by simp [NodupKeys, dkeys, PMState.init], ?_⟩
  intro d p
  simp [PMState.init, dlookup]

theorem rPI_eq_of_none {s : PMState} {port : Nat}
    (hpa : dlookup port s.port_allocations = none) :
    (releasePortInternal s port).1 = s := by
  simp [releasePortInternal, hpa]

theorem rPI_eq_of_some {s : PMState} {port : Nat} {a : Alloc}
    (hpa : dlookup port s.port_allocations = some a) :
    (releasePortInternal s port).1 =
      ⟨derase port s.port_allocations, derase a.device_id s.device_ports⟩ := by
  simp [releasePortInternal, hpa]

theorem inverse_rPI {s : PMState} (hinv : Inverse s) (port : Nat) :
    Inverse (releasePortInternal s port).1 := by
  cases hpa : dlookup port s.port_allocations with
  | none => rw [rPI_eq_of_none hpa]; exact hinv
  | some a =>
    rw [rPI_eq_of_some hpa]
    intro d p
    constructor
    · intro hl
      by_cases hd : d = a.device_id
      · rw [hd, dlookup_derase_self] at hl
        exact absurd hl (by simp)
      · rw [dlookup_derase_ne _ hd] at hl
        have hr := (hinv d p).mp hl
        by_cases hp : p = port
        · rw [hp, hpa] at hr
          simp at hr
          exact absurd hr.symm hd
        · rw [dlookup_derase_ne _ hp]
          exact hr
    · intro hr
      by_cases hp : p = port
      · rw [hp, dlookup_derase_self] at hr
        simp at hr
      · rw [dlookup_derase_ne _ hp] at hr
        have hl := (hinv d p).mpr hr
        by_cases hd : d = a.device_id
        · have hport : dlookup d s.device_ports = some port := by
            apply (hinv d port).mpr
            rw [hpa]
            simp [hd]
          rw [hl] at hport
          simp at hport
          exact absurd hport hp
        · rw [dlookup_derase_ne _ hd]
          exact hl

theorem pmwf_rPI {s : PMState} (h : PMWF s) (port : Nat) :
    PMWF (releasePortInternal s port).1 := by
  cases hpa : dlookup port s.port_allocations with
  | none => rw [rPI_eq_of_none hpa]; exact h
  | some a =>
    refine ⟨?_, ?_, inverse_rPI h.2.2 port⟩ <;> rw [rPI_eq_of_some hpa]
    · exact nodupKeys_derase h.1
    · exact nodupKeys_derase h.2.1

theorem inverse_bindPort {s : PMState} (hinv : Inverse s) {device_id : String}
    {requested_port : Nat} (dn : Option String) (now : Int)
    (hpa : dlookup requested_port s.port_allocations = none)
    (hdp : dlookup device_id s.device_ports = none) :
    Inverse (bindPort s device_id requested_port dn now).1 := by
  intro d p
  dsimp [bindPort]
  by_cases hd : d = device_id
  · subst hd
    rw [dlookup_dinsert_self]
    by_cases hp : p = requested_port
    · subst hp
      rw [dlookup_dinsert_self]
      simp
    · rw [dlookup_dinsert_ne _ _ hp]
      constructor
      · intro he
        exact absurd (Option.some.inj he).symm hp
      · intro hr
        have := (hinv d p).mpr hr
        rw [hdp] at this
        exact absurd this (by simp)
  · rw [dlookup_dinsert_ne _ _ hd]
    by_cases hp : p = requested_port
    · constructor
      · intro hl
        have h2 := (hinv d p).mp hl
        rw [hp, hpa] at h2
        exact absurd h2 (by simp)
      · intro hr
        rw [hp, dlookup_dinsert_self] at hr
        simp at hr
        exact absurd hr.symm hd
    · rw [dlookup_dinsert_ne _ _ hp]
      exact hinv d p

theorem pmwf_bindPort {s : PMState} (h : PMWF s) {device_id : String}
    {requested_port : Nat} (dn : Option String) (now : Int)
    (hpa : dlookup requested_port s.port_allocations = none)
    (hdp : dlookup device_id s.device_ports = none) :
    PMWF (bindPort s device_id requested_port dn now).1 :=
  ⟨nodupKeys_dinsert h.1, nodupKeys_dinsert h.2.1, inverse_bindPort h.2.2 dn now hpa hdp⟩

theorem pmwf_allocAfter {s : PMState} (h : PMWF s) {device_id : String}
    {requested_port : Nat} (dn : Option String) (force : Bool) (now : Int)
    (hdp : dlookup device_id s.device_ports = none) :
    PMWF (allocateAfterDeviceCheck s device_id requested_port dn force now).1 := by
  cases hpa : dlookup requested_port s.port_allocations with
  | none =>
    have hgoal : allocateAfterDeviceCheck s device_id requested_port dn force now =
        bindPort s device_id requested_port dn now := by
      simp [allocateAfterDeviceCheck, hpa]
    rw [hgoal]
    exact pmwf_bindPort h dn now hpa hdp
  | some e =>
    by_cases hf : force = true
    · have hgoal : allocateAfterDeviceCheck s device_id requested_port dn force now =
          bindPort (releasePortInternal s requested_port).1 device_id requested_port dn now := by
        simp [allocateAfterDeviceCheck, hpa, hf]
      rw [hgoal]
      have h1 : PMWF (releasePortInternal s requested_port).1 := pmwf_rPI h requested_port
      have h2 : dlookup requested_port
          (releasePortInternal s requested_port).1.port_allocations = none := by
        rw [rPI_eq_of_some hpa]
        exact dlookup_derase_self _ _
      have h3 : dlookup device_id (releasePortInternal s requested_port).1.device_ports = none := by
        rw [rPI_eq_of_some hpa]
        by_cases hd : device_id = e.device_id
        · rw [hd]
          exact dlookup_derase_self _ _
        · rw [dlookup_derase_ne _ hd]
          exact hdp
      exact pmwf_bindPort h1 dn now h2 h3
    · have hgoal : (allocateAfterDeviceCheck s device_id requested_port dn force now).1 = s := by
        simp [allocateAfterDeviceCheck, hpa, hf]
      rw [hgoal]
      exact h

theorem pmwf_allocate_port {s : PMState} (h : PMWF s) (device_id : String)
    (requested_port : Nat) (dn : Option String) (force : Bool) (now : Int) :
    PMWF (allocate_port s device_id requested_port dn force now).1 := by
  cases hdp : dlookup device_id s.device_ports with
  | none =>
    have hgoal : allocate_port s device_id requested_port dn force now =
        allocateAfterDeviceCheck s device_id requested_port dn force now := by
      simp [allocate_port, hdp]
    rw [hgoal]
    exact pmwf_allocAfter h dn force now hdp
  | some old_port =>
    by_cases hop : old_port = requested_port
    · have hgoal : (allocate_port s device_id requested_port dn force now).1 = s := by
        simp [allocate_port, hdp, hop]
      rw [hgoal]
      exact h
    · have hgoal : allocate_port s device_id requested_port dn force now =
          allocateAfterDeviceCheck (releasePortInternal s old_port).1
            device_id requested_port dn force now := by
        simp [allocate_port, hdp, hop]
      rw [hgoal]
      have hpa : (dlookup old_port s.port_allocations).map Alloc.device_id = some device_id :=
        (h.2.2 device_id old_port).mp hdp
      cases hpaold : dlookup old_port s.port_allocations with
      | none => rw [hpaold] at hpa; exact absurd hpa (by simp)
      | some a =>
        rw [hpaold] at hpa
        simp at hpa
        have h1 : PMWF (releasePortInternal s old_port).1 := pmwf_rPI h old_port
        have h2 : dlookup device_id (releasePortInternal s old_port).1.device_ports = none := by
          rw [rPI_eq_of_some hpaold, hpa]
          exact dlookup_derase_self _ _
        exact pmwf_allocAfter h1 dn force now h2

theorem pmwf_release_port {s : PMState} (h : PMWF s) (device_id : Option String)
    (port : Option Nat) : PMWF (release_port s device_id port).1 := by
  unfold release_port
  by_cases hd : strTruthy device_id
  · rw [if_pos hd]
    cases hdp : dlookup (device_id.getD "") s.device_ports with
    | none => exact h
    | some p => exact pmwf_rPI h p
  · rw [if_neg hd]
    by_cases hp : natTruthy port
    · rw [if_pos hp]
      exact pmwf_rPI h _
    · rw [if_neg hp]
      exact h

theorem pmwf_foldl_rPI (l : List (Nat × Alloc)) {s : PMState} (h : PMWF s) :
    PMWF (l.foldl (fun st pa => (releasePortInternal st pa.1).1) s) := by
  induction l generalizing s with
  | nil => exact h
  | cons x xs ih => exact ih (pmwf_rPI h x.1)

theorem pmwf_cleanup {s : PMState} (h : PMWF s) (now maxAge : Int) :
    PMWF (cleanup_stale_allocations s now maxAge) :=
  pmwf_foldl_rPI _ h

theorem dlookup_rPI_self (s : PMState) (port : Nat) :
    dlookup port (releasePortInternal s port).1.port_allocations = none := by
  cases hpa : dlookup port s.port_allocations with
  | none => rw [rPI_eq_of_none hpa]; exact hpa
  | some a => rw [rPI_eq_of_some hpa]; exact dlookup_derase_self _ _

theorem dlookup_rPI_ne {s : PMState} {p port : Nat} (h : p ≠ port) :
    dlookup p (releasePortInternal s port).1.port_allocations =
      dlookup p s.port_allocations := by
  cases hpa : dlookup port s.port_allocations with
  | none => rw [rPI_eq_of_none hpa]
  | some a => rw [rPI_eq_of_some hpa]; exact dlookup_derase_ne _ h

theorem allocate_port_of_no_prior {s : PMState} {d : String} {p : Nat}
    (dn : Option String) (f : Bool) (now : Int)
    (hdp : dlookup d s.device_ports = none) :
    allocate_port s d p dn f now = allocateAfterDeviceCheck s d p dn f now := by
  simp [allocate_port, hdp]

theorem allocate_port_of_same {s : PMState} {d : String} {p : Nat}
    (dn : Option String) (f : Bool) (now : Int)
    (hdp : dlookup d s.device_ports = some p) :
    allocate_port s d p dn f now = (s, true, alreadyOwnMsg p) := by
  simp [allocate_port, hdp]

theorem allocate_port_of_other {s : PMState} {d : String} {p old : Nat}
    (dn : Option String) (f : Bool) (now : Int)
    (hdp : dlookup d s.device_ports = some old) (hne : old ≠ p) :
    allocate_port s d p dn f now =
      allocateAfterDeviceCheck (releasePortInternal s old).1 d p dn f now := by
  simp [allocate_port, hdp, hne]

theorem allocAfter_free {s : PMState} {d : String} {p : Nat}
    (dn : Option String) (f : Bool) (now : Int)
    (hpa : dlookup p s.port_allocations = none) :
    allocateAfterDeviceCheck s d p dn f now = bindPort s d p dn now := by
  simp [allocateAfterDeviceCheck, hpa]

theorem allocAfter_occupied_noforce {s : PMState} {d : String} {p : Nat}
    (dn : Option String) (now : Int) {e : Alloc}
    (hpa : dlookup p s.port_allocations = some e) :
    allocateAfterDeviceCheck s d p dn false now = (s, false, occupiedMsg p e.device_id) := by
  simp [allocateAfterDeviceCheck, hpa]

theorem allocAfter_occupied_force {s : PMState} {d : String} {p : Nat}
    (dn : Option String) (now : Int) {e : Alloc}
    (hpa : dlookup p s.port_allocations = some e) :
    allocateAfterDeviceCheck s d p dn true now =
      bindPort (releasePortInternal s p).1 d p dn now := by
  simp [allocateAfterDeviceCheck, hpa]

theorem pmwf_runPM (ops : List PMOp) : PMWF (runPM ops) := by
  have hgen : ∀ (l : List PMOp) (s : PMState), PMWF s →
      PMWF (l.foldl (fun s op => op.apply s) s) := by
    intro l
    induction l with
    | nil => intro s h; exact h
    | cons op rest ih =>
      intro s h
      apply ih
      cases op with
      | alloc d p n f t => exact pmwf_allocate_port h d p n f t
      | release d p => exact pmwf_release_port h d p
      | cleanup t m => exact pmwf_cleanup h t m
  exact hgen ops PMState.init pmwf_init

theorem rPI_pair_of_some {s : PMState} {port : Nat} {a : Alloc}
    (hpa : dlookup port s.port_allocations = some a) :
    releasePortInternal s port =
      (⟨derase port s.port_allocations, derase a.device_id s.device_ports⟩, true) := by
  simp [releasePortInternal, hpa]

theorem rPI_pair_of_none {s : PMState} {port : Nat}
    (hpa : dlookup port s.port_allocations = none) :
    releasePortInternal s port = (s, false) := by
  simp [releasePortInternal, hpa]

theorem release_port_by_device {s : PMState} {d : String} (hd : d ≠ "")
    (port : Option Nat) :
    release_port s (some d) port =
      (match dlookup d s.device_ports with
       | none => (s, false)
       | some p => releasePortInternal s p) := by
  have ht : strTruthy (some d) = true := by simp [strTruthy, hd]
  simp [release_port, ht]

theorem release_port_by_port {s : PMState} {p : Nat} (hp : p ≠ 0) :
    release_port s none (some p) = releasePortInternal s p := by
  have ht : natTruthy (some p) = true := by simp [natTruthy, hp]
  simp [release_port, strTruthy, ht]

theorem bindPort_lookup_self (s : PMState) (d : String) (p : Nat)
    (dn : Option String) (now : Int) :
    (dlookup p (bindPort s d p dn now).1.port_allocations).map Alloc.device_id = some d := by
  dsimp [bindPort]
  rw [dlookup_dinsert_self]
  rfl

/-- C10: in every state reachable from the empty allocator by any sequence of
`allocate_port`, `release_port` and `cleanup_stale_allocations` calls, the two
internal maps are mutual inverses: `device_ports` maps device `d` to port `p`
exactly when `port_allocations` maps `p` to a record whose `device_id` is
`d`. -/
theorem C10_port_maps_mutual_inverse (ops : List PMOp) (d : String) (p : Nat) :
    dlookup d (runPM ops).device_ports = some p ↔
      (dlookup p (runPM ops).port_allocations).map Alloc.device_id = some d :=
  (pmwf_runPM ops).2.2 d p

/-- C7: in every reachable allocator state each port is leased to at most one
device; an `allocate_port` without force on a port leased to another device
fails and leaves that lease intact, while `allocate_port` with force succeeds
and afterwards the port's allocation names the requesting device. -/
theorem C7_no_double_lease :
    (∀ (ops : List PMOp) (p : Nat) (a1 a2 : Alloc),
      (p, a1) ∈ (runPM ops).port_allocations →
      (p, a2) ∈ (runPM ops).port_allocations → a1 = a2) ∧
    (∀ (ops : List PMOp) (B : String) (p : Nat) (dn : Option String) (now : Int) (a : Alloc),
      dlookup p (runPM ops).port_allocations = some a → a.device_id ≠ B →
      (allocate_port (runPM ops) B p dn false now).2.1 = false ∧
      dlookup p (allocate_port (runPM ops) B p dn false now).1.port_allocations = some a) ∧
    (∀ (ops : List PMOp) (B : String) (p : Nat) (dn : Option String) (now : Int),
      (allocate_port (runPM ops) B p dn true now).2.1 = true ∧
      (dlookup p (allocate_port (runPM ops) B p dn true now).1.port_allocations).map
        Alloc.device_id = some B) := by
  refine ⟨?_, ?_, ?_⟩
  · intro ops p a1 a2 h1 h2
    have hw := pmwf_runPM ops
    have l1 := dlookup_eq_some_of_mem hw.1 h1
    have l2 := dlookup_eq_some_of_mem hw.1 h2
    rw [l1] at l2
    exact Option.some.inj l2
  · intro ops B p dn now a hpa hne
    have hw := pmwf_runPM ops
    cases hdp : dlookup B (runPM ops).device_ports with
    | none =>
      rw [allocate_port_of_no_prior dn false now hdp, allocAfter_occupied_noforce dn now hpa]
      exact ⟨rfl, hpa⟩
    | some old =>
      have hop : old ≠ p := by
        intro he
        subst he
        have hmap := (hw.2.2 B old).mp hdp
        rw [hpa] at hmap
        simp at hmap
        exact hne hmap
      rw [allocate_port_of_other dn false now hdp hop]
      have hpa1 : dlookup p (releasePortInternal (runPM ops) old).1.port_allocations = some a := by
        rw [dlookup_rPI_ne (fun he => hop he.symm)]
        exact hpa
      rw [allocAfter_occupied_noforce dn now hpa1]
      exact ⟨rfl, hpa1⟩
  · intro ops B p dn now
    have hw := pmwf_runPM ops
    cases hdp : dlookup B (runPM ops).device_ports with
    | none =>
      rw [allocate_port_of_no_prior dn true now hdp]
      cases hpa : dlookup p (runPM ops).port_allocations with
      | none =>
        rw [allocAfter_free dn true now hpa]
        exact ⟨rfl, bindPort_lookup_self _ _ _ _ _⟩
      | some e =>
        rw [allocAfter_occupied_force dn now hpa]
        exact ⟨rfl, bindPort_lookup_self _ _ _ _ _⟩
    | some old =>
      by_cases hop : old = p
      · rw [hop] at hdp
        rw [allocate_port_of_same dn true now hdp]
        exact ⟨rfl, (hw.2.2 B p).mp hdp⟩
      · rw [allocate_port_of_other dn true now hdp hop]
        cases hpa : dlookup p (releasePortInternal (runPM ops) old).1.port_allocations with
        | none =>
          rw [allocAfter_free dn true now hpa]
          exact ⟨rfl, bindPort_lookup_self _ _ _ _ _⟩
        | some e =>
          rw [allocAfter_occupied_force dn now hpa]
          exact ⟨rfl, bindPort_lookup_self _ _ _ _ _⟩

/-- Witness for C7 at concrete inputs: after `Acquire(A, 7001)`, a no-force
`Acquire(B, 7001)` fails leaving the lease with A, and a forced one succeeds
handing the port to B. -/
theorem C7_no_double_lease_witness :
    ((allocate_port (runPM [PMOp.alloc "A" 7001 none false 0]) "B" 7001 none false 1).2.1 = false ∧
      dlookup 7001 (allocate_port (runPM [PMOp.alloc "A" 7001 none false 0])
        "B" 7001 none false 1).1.port_allocations = some ⟨"A", "A", 0⟩) ∧
    ((allocate_port (runPM [PMOp.alloc "A" 7001 none false 0]) "B" 7001 none true 1).2.1 = true ∧
      (dlookup 7001 (allocate_port (runPM [PMOp.alloc "A" 7001 none false 0])
        "B" 7001 none true 1).1.port_allocations).map Alloc.device_id = some "B") :=
  ⟨C7_no_double_lease.2.1 [PMOp.alloc "A" 7001 none false 0] "B" 7001 none 1 ⟨"A", "A", 0⟩
      (by decide) (by decide),
   C7_no_double_lease.2.2 [PMOp.alloc "A" 7001 none false 0] "B" 7001 none 1⟩

/-- C6: when a device that holds a lease on `p` successfully acquires a
different port `q`, afterwards `p` is unleased and `q` is leased to it; and in
every reachable state each device holds at most one lease. -/
theorem C6_single_lease_per_device :
    (∀ (s : PMState) (d : String) (p q : Nat) (dn : Option String) (f : Bool) (now : Int),
      dlookup d s.device_ports = some p → p ≠ q →
      (allocate_port s d q dn f now).2.1 = true →
      dlookup p (allocate_port s d q dn f now).1.port_allocations = none ∧
      dlookup d (allocate_port s d q dn f now).1.device_ports = some q) ∧
    (∀ (ops : List PMOp) (d : String) (p1 p2 : Nat) (a1 a2 : Alloc),
      (p1, a1) ∈ (runPM ops).port_allocations →
      (p2, a2) ∈ (runPM ops).port_allocations →
      a1.device_id = d → a2.device_id = d → p1 = p2) := by
  constructor
  · intro s d p q dn f now hdp hpq hok
    have hqp : q ≠ p := fun he => hpq he.symm
    rw [allocate_port_of_other dn f now hdp hpq] at hok ⊢
    have hp1 : dlookup p (releasePortInternal s p).1.port_allocations = none :=
      dlookup_rPI_self s p
    cases hq : dlookup q (releasePortInternal s p).1.port_allocations with
    | none =>
      rw [allocAfter_free dn f now hq]
      constructor
      · dsimp [bindPort]
        rw [dlookup_dinsert_ne _ _ hpq]
        exact hp1
      · dsimp [bindPort]
        rw [dlookup_dinsert_self]
    | some e =>
      cases f with
      | false =>
        rw [allocAfter_occupied_noforce dn now hq] at hok
        simp at hok
      | true =>
        rw [allocAfter_occupied_force dn now hq]
        constructor
        · dsimp [bindPort]
          rw [dlookup_dinsert_ne _ _ hpq, dlookup_rPI_ne hpq]
          exact hp1
        · dsimp [bindPort]
          rw [dlookup_dinsert_self]
  · intro ops d p1 p2 a1 a2 h1 h2 hd1 hd2
    have hw := pmwf_runPM ops
    have l1 := dlookup_eq_some_of_mem hw.1 h1
    have l2 := dlookup_eq_some_of_mem hw.1 h2
    have e1 : dlookup d (runPM ops).device_ports = some p1 := by
      apply (hw.2.2 d p1).mpr
      rw [l1]
      simp [hd1]
    have e2 : dlookup d (runPM ops).device_ports = some p2 := by
      apply (hw.2.2 d p2).mpr
      rw [l2]
      simp [hd2]
    rw [e1] at e2
    exact Option.some.inj e2

/-- Witness for C6 at concrete inputs: `Acquire(A, 7001)` then `Acquire(A,
7002)` leaves 7001 unleased and 7002 leased to A. -/
theorem C6_single_lease_per_device_witness :
    dlookup 7001 (allocate_port (runPM [PMOp.alloc "A" 7001 none false 0])
      "A" 7002 none false 1).1.port_allocations = none ∧
    dlookup "A" (allocate_port (runPM [PMOp.alloc "A" 7001 none false 0])
      "A" 7002 none false 1).1.device_ports = some 7002 :=
  C6_single_lease_per_device.1 (runPM [PMOp.alloc "A" 7001 none false 0])
    "A" 7001 7002 none false 1 (by decide) (by decide) (by decide)

/-- Counterexample for C9 as stated: a lease on port 0 (reachable via
`allocate_port`) is a currently held lease, yet `release_port(port=0)` returns
false and leaves the lease table unchanged, because Python's `elif port:`
treats the integer 0 as "argument not provided". -/
theorem C9_counterexample :
    (dlookup 0 (runPM [PMOp.alloc "A" 0 none false 0]).port_allocations).isSome = true ∧
    (release_port (runPM [PMOp.alloc "A" 0 none false 0]) none (some 0)).2 = false ∧
    (release_port (runPM [PMOp.alloc "A" 0 none false 0]) none (some 0)).1 =
      runPM [PMOp.alloc "A" 0 none false 0] := by
  decide

/-- C9 (amended): for a nonempty device identity and a nonzero port —
Python's truthiness test treats `""` and `0` as an absent argument — release
of a held lease returns true and removes exactly that lease, an immediately
repeated release returns false and changes nothing, and releasing an identity
or port holding no lease returns false. -/
theorem C9_release_idempotent :
    (∀ (s : PMState) (d : String) (p : Nat), Inverse s → d ≠ "" →
      dlookup d s.device_ports = some p →
      release_port s (some d) none =
        (⟨derase p s.port_allocations, derase d s.device_ports⟩, true)) ∧
    (∀ (s : PMState) (p : Nat) (a : Alloc), p ≠ 0 →
      dlookup p s.port_allocations = some a →
      release_port s none (some p) =
        (⟨derase p s.port_allocations, derase a.device_id s.device_ports⟩, true)) ∧
    (∀ (s : PMState) (d : String) (p : Nat), Inverse s → d ≠ "" →
      dlookup d s.device_ports = some p →
      release_port (release_port s (some d) none).1 (some d) none =
        ((release_port s (some d) none).1, false)) ∧
    (∀ (s : PMState) (p : Nat) (a : Alloc), p ≠ 0 →
      dlookup p s.port_allocations = some a →
      release_port (release_port s none (some p)).1 none (some p) =
        ((release_port s none (some p)).1, false)) ∧
    (∀ (s : PMState) (d : String), d ≠ "" → dlookup d s.device_ports = none →
      release_port s (some d) none = (s, false)) ∧
    (∀ (s : PMState) (p : Nat), p ≠ 0 → dlookup p s.port_allocations = none →
      release_port s none (some p) = (s, false)) := by
  have hbyd : ∀ (s : PMState) (d : String) (p : Nat), Inverse s → d ≠ "" →
      dlookup d s.device_ports = some p →
      release_port s (some d) none =
        (⟨derase p s.port_allocations, derase d s.device_ports⟩, true) := by
    intro s d p hinv hd hdp
    have hm := (hinv d p).mp hdp
    cases hpa : dlookup p s.port_allocations with
    | none => rw [hpa] at hm; exact absurd hm (by simp)
    | some a =>
      rw [hpa] at hm
      simp at hm
      rw [release_port_by_device hd none, hdp]
      dsimp only
      rw [rPI_pair_of_some hpa, hm]
  have hbyp : ∀ (s : PMState) (p : Nat) (a : Alloc), p ≠ 0 →
      dlookup p s.port_allocations = some a →
      release_port s none (some p) =
        (⟨derase p s.port_allocations, derase a.device_id s.device_ports⟩, true) := by
    intro s p a hp hpa
    rw [release_port_by_port hp, rPI_pair_of_some hpa]
  refine ⟨hbyd, hbyp, ?_, ?_, ?_, ?_⟩
  · intro s d p hinv hd hdp
    rw [hbyd s d p hinv hd hdp]
    rw [release_port_by_device hd none]
    dsimp only
    rw [dlookup_derase_self]
  · intro s p a hp hpa
    rw [hbyp s p a hp hpa]
    rw [release_port_by_port hp]
    dsimp only
    rw [rPI_pair_of_none (dlookup_derase_self _ _)]
  · intro s d hd hdp
    rw [release_port_by_device hd none, hdp]
  · intro s p hp hpa
    rw [release_port_by_port hp, rPI_pair_of_none hpa]

/-- Witness for the amended C9 at concrete inputs: `Acquire(A, 7001)`;
`Release(A)` returns true and empties the table; `Release(A)` again returns
false and changes nothing; `Release(port=7002)` on a free port returns
false. -/
theorem C9_release_idempotent_witness :
    release_port (runPM [PMOp.alloc "A" 7001 none false 0]) (some "A") none =
      (⟨derase 7001 (runPM [PMOp.alloc "A" 7001 none false 0]).port_allocations,
        derase "A" (runPM [PMOp.alloc "A" 7001 none false 0]).device_ports⟩, true) ∧
    release_port (release_port (runPM [PMOp.alloc "A" 7001 none false 0])
        (some "A") none).1 (some "A") none =
      ((release_port (runPM [PMOp.alloc "A" 7001 none false 0]) (some "A") none).1, false) ∧
    release_port (runPM [PMOp.alloc "A" 7001 none false 0]) none (some 7002) =
      (runPM [PMOp.alloc "A" 7001 none false 0], false) :=
  ⟨C9_release_idempotent.1 (runPM [PMOp.alloc "A" 7001 none false 0]) "A" 7001
      (pmwf_runPM [PMOp.alloc "A" 7001 none false 0]).2.2 (by decide) (by decide),
   C9_release_idempotent.2.2.1 (runPM [PMOp.alloc "A" 7001 none false 0]) "A" 7001
      (pmwf_runPM [PMOp.alloc "A" 7001 none false 0]).2.2 (by decide) (by decide),
   C9_release_idempotent.2.2.2.2.2 (runPM [PMOp.alloc "A" 7001 none false 0]) 7002
      (by decide) (by decide)⟩

/-- Counterexample for C2 as stated: with port 1 leased to device d and port 2
leased to device e, the failing call `allocate_port(d, 2, force := false)`
does not leave the lease state identical — d's own lease on port 1 has been
released before the conflict check. -/
theorem C2_counterexample :
    (allocate_port (runPM [PMOp.alloc "d" 1 none false 0, PMOp.alloc "e" 2 none false 0])
      "d" 2 none false 5).2.1 = false ∧
    dlookup "d" (runPM [PMOp.alloc "d" 1 none false 0,
      PMOp.alloc "e" 2 none false 0]).device_ports = some 1 ∧
    dlookup "d" (allocate_port (runPM [PMOp.alloc "d" 1 none false 0,
      PMOp.alloc "e" 2 none false 0]) "d" 2 none false 5).1.device_ports = none ∧
    dlookup 1 (allocate_port (runPM [PMOp.alloc "d" 1 none false 0,
      PMOp.alloc "e" 2 none false 0]) "d" 2 none false 5).1.port_allocations = none := by
  decide

/-- C2 (amended): `allocate_port(d, p, force := false)` with `p` leased to a
different device fails with the port-conflict message and leaves the lease on
`p` — and every lease other than the requester's own prior lease — unchanged;
but if `d` held a lease on another port, that lease has already been released
by the call. -/
theorem C2_conflict_fails_after_releasing_own_lease :
    ∀ (s : PMState) (d : String) (p : Nat) (dn : Option String) (now : Int) (a : Alloc),
      Inverse s → dlookup p s.port_allocations = some a → a.device_id ≠ d →
      (allocate_port s d p dn false now).2.1 = false ∧
      (allocate_port s d p dn false now).2.2 = occupiedMsg p a.device_id ∧
      dlookup p (allocate_port s d p dn false now).1.port_allocations = some a ∧
      (allocate_port s d p dn false now).1 =
        (match dlookup d s.device_ports with
         | some old => (releasePortInternal s old).1
         | none => s) := by
  intro s d p dn now a hinv hpa hne
  cases hdp : dlookup d s.device_ports with
  | none =>
    rw [allocate_port_of_no_prior dn false now hdp, allocAfter_occupied_noforce dn now hpa]
    exact ⟨rfl, rfl, hpa, rfl⟩
  | some old =>
    have hop : old ≠ p := by
      intro he
      subst he
      have hmap := (hinv d old).mp hdp
      rw [hpa] at hmap
      simp at hmap
      exact hne hmap
    rw [allocate_port_of_other dn false now hdp hop]
    have hpa1 : dlookup p (releasePortInternal s old).1.port_allocations = some a := by
      rw [dlookup_rPI_ne (fun he => hop he.symm)]
      exact hpa
    rw [allocAfter_occupied_noforce dn now hpa1]
    exact ⟨rfl, rfl, hpa1, rfl⟩

/-- Witness for the amended C2 at concrete inputs: with 1 leased to d and 2
leased to e, the failing `allocate_port(d, 2)` returns the conflict message
and the state in which d's prior lease on 1 has been released. -/
theorem C2_conflict_witness :
    (allocate_port (runPM [PMOp.alloc "d" 1 none false 0, PMOp.alloc "e" 2 none false 0])
      "d" 2 none false 5).2.1 = false ∧
    (allocate_port (runPM [PMOp.alloc "d" 1 none false 0, PMOp.alloc "e" 2 none false 0])
      "d" 2 none false 5).2.2 = occupiedMsg 2 "e" ∧
    dlookup 2 (allocate_port (runPM [PMOp.alloc "d" 1 none false 0,
      PMOp.alloc "e" 2 none false 0]) "d" 2 none false 5).1.port_allocations =
      some ⟨"e", "e", 0⟩ ∧
    (allocate_port (runPM [PMOp.alloc "d" 1 none false 0, PMOp.alloc "e" 2 none false 0])
      "d" 2 none false 5).1 =
      (match dlookup "d" (runPM [PMOp.alloc "d" 1 none false 0,
        PMOp.alloc "e" 2 none false 0]).device_ports with
       | some old => (releasePortInternal (runPM [PMOp.alloc "d" 1 none false 0,
          PMOp.alloc "e" 2 none false 0]) old).1
       | none => runPM [PMOp.alloc "d" 1 none false 0, PMOp.alloc "e" 2 none false 0]) :=
  C2_conflict_fails_after_releasing_own_lease
    (runPM [PMOp.alloc "d" 1 none false 0, PMOp.alloc "e" 2 none false 0])
    "d" 2 none 5 ⟨"e", "e", 0⟩
    (pmwf_runPM [PMOp.alloc "d" 1 none false 0, PMOp.alloc "e" 2 none false 0]).2.2
    (by decide) (by decide)

/-! ## Active Scanner (`server/services/device_scanner.py`, class `DeviceScanner`)

`scan_once` probes a port range; probing (`check_port_listening`,
`try_adb_connect`) and the advisory spec fetch (`get_device_specs`) are
external I/O, so a sweep is modelled as a function of the probe outcome: the
list of ports that answered, each with the (optional) reported model string.
The advisory spec fields other than `model` (battery, memory, …) never
influence control flow and are omitted from the record. -/

structure ScannedDevice where
  device_id : String
  device_name : String
  frp_port : Nat
  adb_address : String
  adb_serial : String
  discovered_at : Int
  last_seen : Int
  is_online : Bool
  model : Option String
deriving DecidableEq, Repr

structure ScannerState where
  devices : List (String × ScannedDevice)
  port_to_device : List (Nat × String)
deriving DecidableEq, Repr

/-- The scanner and the port-manager singleton it calls into. -/
structure ScanSt where
  scanner : ScannerState
  pm : PMState
deriving DecidableEq, Repr

/-- `DeviceScanner.generate_device_id`: deterministic identity from the
port. -/
def generate_device_id (frp_port : Nat) : String :=
  "device_" ++ toString frp_port

/-- `DeviceScanner.try_adb_connect` returns `"localhost:{port}"` on
success. -/
def adbAddressOf (port : Nat) : String :=
  "localhost:" ++ toString port

/-- One successful probe of `scan_once`: the responding port and the model
string that `get_device_specs` fetched for it (absent when the fetch
failed). -/
structure ScanProbe where
  port : Nat
  model : Option String
deriving DecidableEq, Repr

/-- `DeviceScanner.get_default_device_name`. -/
def get_default_device_name (device_id : String) (model : Option String)
    (port : Nat) : String :=
  match model with
  | some m => (m.replace " " "-") ++ "-" ++ toString port
  | none => "device-" ++ toString port

/-- The `ScannedDevice(...)` record built for a first sighting in `scan_once`
(lines 358-372): default name from the fetched model, Online, timestamps set
to the sweep time. -/
def newDevice (now : Int) (pr : ScanProbe) : ScannedDevice :=
  { device_id := generate_device_id pr.port,
    device_name := get_default_device_name (generate_device_id pr.port) pr.model pr.port,
    frp_port := pr.port,
    adb_address := adbAddressOf pr.port,
    adb_serial := adbAddressOf pr.port,
    discovered_at := now,
    last_seen := now,
    is_online := true,
    model := pr.model }

/-- The refresh of an already-known device on re-sighting (lines 384-391):
`device.last_seen = now` and flip `is_online` back to true. -/
def refreshDevice (now : Int) (device : ScannedDevice) : ScannedDevice :=
  { device with last_seen := now, is_online := true }

/-- Processing of one found port inside `scan_once` (lines 313-391): a new
identity first leases the port (no force); on failure the device is not
registered (the just-opened connection is dropped, and the shared port
manager keeps whatever the failed call did to it); on success it is added
Online.  A known identity is refreshed and flipped back Online. -/
def scanFoundPort (now : Int) (st : ScanSt) (pr : ScanProbe) : ScanSt :=
  match dlookup (generate_device_id pr.port) st.scanner.devices with
  | none =>
    if (allocate_port st.pm (generate_device_id pr.port) pr.port
        (some (generate_device_id pr.port)) false now).2.1 then
      { scanner :=
          { devices := dinsert (generate_device_id pr.port) (newDevice now pr)
              st.scanner.devices,
            port_to_device := dinsert pr.port (generate_device_id pr.port)
              st.scanner.port_to_device },
        pm := (allocate_port st.pm (generate_device_id pr.port) pr.port
          (some (generate_device_id pr.port)) false now).1 }
    else
      { st with pm := (allocate_port st.pm (generate_device_id pr.port) pr.port
          (some (generate_device_id pr.port)) false now).1 }
  | some device =>
    { st with scanner :=
        { st.scanner with devices := (dinsert (generate_device_id pr.port)
            (refreshDevice now device) st.scanner.devices) } }

theorem scanFound_known {st : ScanSt} {now : Int} {pr : ScanProbe} {device : ScannedDevice}
    (hdev : dlookup (generate_device_id pr.port) st.scanner.devices = some device) :
    scanFoundPort now st pr =
      { st with scanner :=
          { st.scanner with devices := (dinsert (generate_device_id pr.port)
              (refreshDevice now device) st.scanner.devices) } } := by
  simp [scanFoundPort, hdev]

theorem scanFound_new_ok {st : ScanSt} {now : Int} {pr : ScanProbe}
    (hdev : dlookup (generate_device_id pr.port) st.scanner.devices = none)
    (hok : (allocate_port st.pm (generate_device_id pr.port) pr.port
      (some (generate_device_id pr.port)) false now).2.1 = true) :
    scanFoundPort now st pr =
      { scanner :=
          { devices := dinsert (generate_device_id pr.port) (newDevice now pr)
              st.scanner.devices,
            port_to_device := dinsert pr.port (generate_device_id pr.port)
              st.scanner.port_to_device },
        pm := (allocate_port st.pm (generate_device_id pr.port) pr.port
          (some (generate_device_id pr.port)) false now).1 } := by
  simp [scanFoundPort, hdev, hok]

theorem scanFound_new_fail {st : ScanSt} {now : Int} {pr : ScanProbe}
    (hdev : dlookup (generate_device_id pr.port) st.scanner.devices = none)
    (hok : (allocate_port st.pm (generate_device_id pr.port) pr.port
      (some (generate_device_id pr.port)) false now).2.1 = false) :
    scanFoundPort now st pr =
      { st with pm := (allocate_port st.pm (generate_device_id pr.port) pr.port
          (some (generate_device_id pr.port)) false now).1 } := by
  simp [scanFoundPort, hdev, hok]

/-- The offline pass of `scan_once` (lines 393-403) for one registry entry: a
device not reconfirmed in this sweep and currently online is marked offline,
its lease is released via the port manager, and its `port_to_device` entry is
dropped. -/
def markNotSeen (foundIds : List String) (acc : ScanSt)
    (entry : String × ScannedDevice) : ScanSt :=
  if entry.1 ∉ foundIds ∧ entry.2.is_online = true then
    { scanner :=
        { devices := dinsert entry.1 { entry.2 with is_online := false } acc.scanner.devices,
          port_to_device := derase entry.2.frp_port acc.scanner.port_to_device },
      pm := (release_port acc.pm (some entry.1) none).1 }
  else acc

/-- `DeviceScanner.scan_once`: process each responding port in sweep order
(the batches of 10 concurrent probes are consumed batch by batch, so the
overall processing order is the port order), then run the offline pass over
the registry; `found_devices` is the set of identities derived from the
responding ports. -/
def scan_once (st : ScanSt) (found : List ScanProbe) (now : Int) : ScanSt :=
  (found.foldl (scanFoundPort now) st).scanner.devices.foldl
    (markNotSeen (found.map (fun pr => generate_device_id pr.port)))
    (found.foldl (scanFoundPort now) st)

/-- The offline marking applied to a device record (line 396). -/
def offDevice (dev : ScannedDevice) : ScannedDevice :=
  { dev with is_online := false }

theorem markNotSeen_offline {foundIds : List String} {acc : ScanSt}
    {e : String × ScannedDevice} (h1 : e.1 ∉ foundIds) (h2 : e.2.is_online = true) :
    markNotSeen foundIds acc e =
      ⟨⟨dinsert e.1 (offDevice e.2) acc.scanner.devices,
        derase e.2.frp_port acc.scanner.port_to_device⟩,
       (release_port acc.pm (some e.1) none).1⟩ := by
  unfold markNotSeen offDevice
  rw [if_pos ⟨h1, h2⟩]

theorem markNotSeen_not_offline {foundIds : List String} {acc : ScanSt}
    {e : String × ScannedDevice} (h : ¬(e.1 ∉ foundIds ∧ e.2.is_online = true)) :
    markNotSeen foundIds acc e = acc := by
  unfold markNotSeen
  rw [if_neg h]

theorem dlookup_derase_none {K V : Type} [DecidableEq K] {k k' : K} {l : List (K × V)}
    (h : dlookup k l = none) : dlookup k (derase k' l) = none := by
  by_cases he : k = k'
  · rw [he, dlookup_derase_self]
  · rw [dlookup_derase_ne _ he]
    exact h

theorem dp_rPI_preserve {s : PMState} {port : Nat} {d : String}
    (h : ∀ a, dlookup port s.port_allocations = some a → a.device_id ≠ d) :
    dlookup d (releasePortInternal s port).1.device_ports =
      dlookup d s.device_ports := by
  cases hpa : dlookup port s.port_allocations with
  | none => rw [rPI_eq_of_none hpa]
  | some a =>
    rw [rPI_eq_of_some hpa]
    exact dlookup_derase_ne _ (fun he => h a hpa he.symm)

theorem dp_lookup_allocate_ne {s : PMState} {device_id d : String} {p : Nat}
    (h : PMWF s) (dn : Option String) (now : Int) (hne : d ≠ device_id) :
    dlookup d (allocate_port s device_id p dn false now).1.device_ports =
      dlookup d s.device_ports := by
  have hafter : ∀ s1 : PMState, dlookup d s1.device_ports = dlookup d s.device_ports →
      dlookup d (allocateAfterDeviceCheck s1 device_id p dn false now).1.device_ports =
        dlookup d s.device_ports := by
    intro s1 hs1
    cases hpa : dlookup p s1.port_allocations with
    | none =>
      rw [allocAfter_free dn false now hpa]
      dsimp [bindPort]
      rw [dlookup_dinsert_ne _ _ hne]
      exact hs1
    | some e =>
      rw [allocAfter_occupied_noforce dn now hpa]
      exact hs1
  cases hdp : dlookup device_id s.device_ports with
  | none =>
    rw [allocate_port_of_no_prior dn false now hdp]
    exact hafter s rfl
  | some old =>
    by_cases hop : old = p
    · rw [hop] at hdp
      rw [allocate_port_of_same dn false now hdp]
    · rw [allocate_port_of_other dn false now hdp hop]
      apply hafter
      apply dp_rPI_preserve
      intro a hpa hda
      have hmap := (h.2.2 device_id old).mp hdp
      rw [hpa] at hmap
      simp at hmap
      exact hne (hda ▸ hmap ▸ rfl)

theorem dp_lookup_release_ne {s : PMState} {k d : String}
    (h : PMWF s) (hne : d ≠ k) :
    dlookup d (release_port s (some k) none).1.device_ports =
      dlookup d s.device_ports := by
  by_cases hk : k = ""
  · subst hk
    have : strTruthy (some "") = false := by simp [strTruthy]
    simp [release_port, this, natTruthy]
  · rw [release_port_by_device hk none]
    cases hdp : dlookup k s.device_ports with
    | none => rfl
    | some p =>
      dsimp only
      apply dp_rPI_preserve
      intro a hpa hda
      have hmap := (h.2.2 k p).mp hdp
      rw [hpa] at hmap
      simp at hmap
      exact hne (hda ▸ hmap ▸ rfl)

theorem dp_release_self_none {s : PMState} {k : String}
    (h : PMWF s) (hk : k ≠ "") :
    dlookup k (release_port s (some k) none).1.device_ports = none := by
  rw [release_port_by_device hk none]
  cases hdp : dlookup k s.device_ports with
  | none => exact hdp
  | some p =>
    dsimp only
    have hmap := (h.2.2 k p).mp hdp
    cases hpa : dlookup p s.port_allocations with
    | none => rw [hpa] at hmap; exact absurd hmap (by simp)
    | some a =>
      rw [hpa] at hmap
      simp at hmap
      rw [rPI_eq_of_some hpa, hmap]
      exact dlookup_derase_self _ _

theorem dp_release_none_stable {s : PMState} {d : String}
    (x : Option String) (y : Option Nat)
    (h : dlookup d s.device_ports = none) :
    dlookup d (release_port s x y).1.device_ports = none := by
  have hrpi : ∀ p, dlookup d (releasePortInternal s p).1.device_ports = none := by
    intro p
    cases hpa : dlookup p s.port_allocations with
    | none => rw [rPI_eq_of_none hpa]; exact h
    | some a => rw [rPI_eq_of_some hpa]; exact dlookup_derase_none h
  unfold release_port
  by_cases ht : strTruthy x
  · rw [if_pos ht]
    cases hdp : dlookup (x.getD "") s.device_ports with
    | none => exact h
    | some p => exact hrpi p
  · rw [if_neg ht]
    by_cases hn : natTruthy y
    · rw [if_pos hn]
      exact hrpi _
    · rw [if_neg hn]
      exact h

theorem scanFound_pm_wf {st : ScanSt} (h : PMWF st.pm) (now : Int) (pr : ScanProbe) :
    PMWF (scanFoundPort now st pr).pm := by
  cases hdev : dlookup (generate_device_id pr.port) st.scanner.devices with
  | none =>
    by_cases hok : (allocate_port st.pm (generate_device_id pr.port) pr.port
        (some (generate_device_id pr.port)) false now).2.1 = true
    · rw [scanFound_new_ok hdev hok]
      exact pmwf_allocate_port h _ _ _ _ _
    · rw [scanFound_new_fail hdev (Bool.not_eq_true _ ▸ hok)]
      exact pmwf_allocate_port h _ _ _ _ _
  | some device =>
    rw [scanFound_known hdev]
    exact h

theorem scanFound_devices_ne {st : ScanSt} {did : String} (now : Int) (pr : ScanProbe)
    (hne : generate_device_id pr.port ≠ did) :
    dlookup did (scanFoundPort now st pr).scanner.devices =
      dlookup did st.scanner.devices := by
  have hne' : did ≠ generate_device_id pr.port := fun he => hne he.symm
  cases hdev : dlookup (generate_device_id pr.port) st.scanner.devices with
  | none =>
    by_cases hok : (allocate_port st.pm (generate_device_id pr.port) pr.port
        (some (generate_device_id pr.port)) false now).2.1 = true
    · rw [scanFound_new_ok hdev hok]
      exact dlookup_dinsert_ne _ _ hne'
    · rw [scanFound_new_fail hdev (Bool.not_eq_true _ ▸ hok)]
  | some device =>
    rw [scanFound_known hdev]
    exact dlookup_dinsert_ne _ _ hne'

theorem scanFound_nodup {st : ScanSt} (h : NodupKeys st.scanner.devices)
    (now : Int) (pr : ScanProbe) :
    NodupKeys (scanFoundPort now st pr).scanner.devices := by
  cases hdev : dlookup (generate_device_id pr.port) st.scanner.devices with
  | none =>
    by_cases hok : (allocate_port st.pm (generate_device_id pr.port) pr.port
        (some (generate_device_id pr.port)) false now).2.1 = true
    · rw [scanFound_new_ok hdev hok]
      exact nodupKeys_dinsert h
    · rw [scanFound_new_fail hdev (Bool.not_eq_true _ ▸ hok)]
      exact h
  | some device =>
    rw [scanFound_known hdev]
    exact nodupKeys_dinsert h

theorem FP_pm_wf (now : Int) :
    ∀ (found : List ScanProbe) (st : ScanSt), PMWF st.pm →
      PMWF (found.foldl (scanFoundPort now) st).pm := by
  intro found
  induction found with
  | nil => intro st h; exact h
  | cons pr rest ih =>
    intro st h
    exact ih _ (scanFound_pm_wf h now pr)

theorem FP_devices_ne (now : Int) {did : String} :
    ∀ (found : List ScanProbe) (st : ScanSt),
      did ∉ found.map (fun pr => generate_device_id pr.port) →
      dlookup did (found.foldl (scanFoundPort now) st).scanner.devices =
        dlookup did st.scanner.devices := by
  intro found
  induction found with
  | nil => intro st _; rfl
  | cons pr rest ih =>
    intro st hmem
    simp only [List.map_cons, List.mem_cons] at hmem
    push_neg at hmem
    rw [List.foldl_cons, ih _ hmem.2, scanFound_devices_ne now pr (fun he => hmem.1 he.symm)]

theorem FP_nodup (now : Int) :
    ∀ (found : List ScanProbe) (st : ScanSt), NodupKeys st.scanner.devices →
      NodupKeys (found.foldl (scanFoundPort now) st).scanner.devices := by
  intro found
  induction found with
  | nil => intro st h; exact h
  | cons pr rest ih =>
    intro st h
    exact ih _ (scanFound_nodup h now pr)

theorem FP_devices_online (now : Int) {did : String} :
    ∀ (found : List ScanProbe) (st : ScanSt) (d0 : ScannedDevice),
      dlookup did st.scanner.devices = some d0 →
      ∃ d1, dlookup did (found.foldl (scanFoundPort now) st).scanner.devices = some d1 ∧
        (d0.is_online = true → d1.is_online = true) ∧
        (did ∈ found.map (fun pr => generate_device_id pr.port) → d1.is_online = true) := by
  intro found
  induction found with
  | nil =>
    intro st d0 h
    exact ⟨d0, h, fun hx => hx, by simp⟩
  | cons pr rest ih =>
    intro st d0 h
    by_cases he : generate_device_id pr.port = did
    · have h0 : dlookup (generate_device_id pr.port) st.scanner.devices = some d0 := by
        rw [he]; exact h
      have hstep : dlookup did (scanFoundPort now st pr).scanner.devices =
          some (refreshDevice now d0) := by
        rw [scanFound_known h0, ← he]
        exact dlookup_dinsert_self _ _ _
      obtain ⟨d1, h1, h2, h3⟩ := ih (scanFoundPort now st pr) _ hstep
      refine ⟨d1, by rw [List.foldl_cons]; exact h1, fun _ => h2 rfl, fun _ => h2 rfl⟩
    · have hstep : dlookup did (scanFoundPort now st pr).scanner.devices = some d0 := by
        rw [scanFound_devices_ne now pr he]
        exact h
      obtain ⟨d1, h1, h2, h3⟩ := ih (scanFoundPort now st pr) _ hstep
      refine ⟨d1, by rw [List.foldl_cons]; exact h1, h2, ?_⟩
      intro hmem
      simp only [List.map_cons, List.mem_cons] at hmem
      rcases hmem with hx | hx
      · exact absurd hx.symm he
      · exact h3 hx

theorem markNotSeen_pm_wf {foundIds : List String} {acc : ScanSt}
    (h : PMWF acc.pm) (e : String × ScannedDevice) :
    PMWF (markNotSeen foundIds acc e).pm := by
  unfold markNotSeen
  split
  · exact pmwf_release_port h _ _
  · exact h

theorem markNotSeen_dp_none {foundIds : List String} {acc : ScanSt} {did : String}
    (h : dlookup did acc.pm.device_ports = none) (e : String × ScannedDevice) :
    dlookup did (markNotSeen foundIds acc e).pm.device_ports = none := by
  unfold markNotSeen
  split
  · exact dp_release_none_stable _ _ h
  · exact h

theorem markNotSeen_devices_ne {foundIds : List String} {acc : ScanSt} {did : String}
    {e : String × ScannedDevice} (hne : e.1 ≠ did) :
    dlookup did (markNotSeen foundIds acc e).scanner.devices =
      dlookup did acc.scanner.devices := by
  unfold markNotSeen
  split
  · exact dlookup_dinsert_ne _ _ (fun he => hne he.symm)
  · rfl

theorem OFF_pm_wf {foundIds : List String} :
    ∀ (L : List (String × ScannedDevice)) (acc : ScanSt), PMWF acc.pm →
      PMWF (L.foldl (markNotSeen foundIds) acc).pm := by
  intro L
  induction L with
  | nil => intro acc h; exact h
  | cons e rest ih => intro acc h; exact ih _ (markNotSeen_pm_wf h e)

theorem OFF_dp_none {foundIds : List String} {did : String} :
    ∀ (L : List (String × ScannedDevice)) (acc : ScanSt),
      dlookup did acc.pm.device_ports = none →
      dlookup did (L.foldl (markNotSeen foundIds) acc).pm.device_ports = none := by
  intro L
  induction L with
  | nil => intro acc h; exact h
  | cons e rest ih => intro acc h; exact ih _ (markNotSeen_dp_none h e)

theorem OFF_devices_ne {foundIds : List String} {did : String} :
    ∀ (L : List (String × ScannedDevice)) (acc : ScanSt), did ∉ dkeys L →
      dlookup did (L.foldl (markNotSeen foundIds) acc).scanner.devices =
        dlookup did acc.scanner.devices := by
  intro L
  induction L with
  | nil => intro acc _; rfl
  | cons e rest ih =>
    intro acc hmem
    simp only [dkeys, List.map_cons, List.mem_cons] at hmem
    push_neg at hmem
    rw [List.foldl_cons, ih _ (by simpa [dkeys] using hmem.2),
      markNotSeen_devices_ne (fun he => hmem.1 he.symm)]

theorem nodup_split_not_mem {α : Type} {l1 l2 : List α} {a : α}
    (h : (l1 ++ a :: l2).Nodup) : a ∉ l1 ∧ a ∉ l2 := by
  obtain ⟨h1, h2, h3⟩ := List.nodup_append.mp h
  exact ⟨fun ha => (List.disjoint_left.mp h3 ha) (List.mem_cons_self a l2),
    (List.nodup_cons.mp h2).1⟩

theorem offline_eta {dev : ScannedDevice} (h : dev.is_online = false) :
    offDevice dev = dev := by
  cases dev
  simp_all [offDevice]

theorem OFF_main_offline {foundIds : List String} :
    ∀ (L1 L2 : List (String × ScannedDevice)) (acc : ScanSt) (did : String)
      (dev : ScannedDevice),
      PMWF acc.pm → did ≠ "" → did ∉ foundIds → did ∉ dkeys L1 → did ∉ dkeys L2 →
      dlookup did acc.scanner.devices = some dev →
      dlookup did ((L1 ++ (did, dev) :: L2).foldl
        (markNotSeen foundIds) acc).scanner.devices = some (offDevice dev) ∧
      (dev.is_online = true →
        dlookup did ((L1 ++ (did, dev) :: L2).foldl
          (markNotSeen foundIds) acc).pm.device_ports = none) := by
  intro L1 L2 acc did dev hwf hne hnf h1 h2 hacc
  rw [List.foldl_append, List.foldl_cons]
  have hacc1dev : dlookup did (L1.foldl (markNotSeen foundIds) acc).scanner.devices =
      some dev := by
    rw [OFF_devices_ne L1 acc h1]
    exact hacc
  have hacc1wf : PMWF (L1.foldl (markNotSeen foundIds) acc).pm := OFF_pm_wf L1 acc hwf
  by_cases hon : dev.is_online = true
  · rw [markNotSeen_offline hnf hon]
    constructor
    · rw [OFF_devices_ne L2 _ h2]
      exact dlookup_dinsert_self _ _ _
    · intro _
      apply OFF_dp_none
      exact dp_release_self_none hacc1wf hne
  · have hoff : dev.is_online = false := by
      cases hb : dev.is_online
      · rfl
      · exact absurd hb hon
    rw [markNotSeen_not_offline (fun hc => hon hc.2)]
    constructor
    · rw [OFF_devices_ne L2 _ h2, hacc1dev, offline_eta hoff]
    · intro hc
      exact absurd hc hon

/-- C8: after one Active-Scanner sweep, every previously known device not
reconfirmed by that sweep ends the sweep marked offline, and if it was online
it no longer holds a port lease; a known device that is seen again (also in a
later sweep, after having gone offline) ends the sweep online and is still
present in the registry. -/
theorem C8_scan_once_offline_and_flip :
    (∀ (st : ScanSt) (found : List ScanProbe) (now : Int) (did : String)
        (dev : ScannedDevice),
      PMWF st.pm → NodupKeys st.scanner.devices → did ≠ "" →
      dlookup did st.scanner.devices = some dev →
      did ∉ found.map (fun pr => generate_device_id pr.port) →
      dlookup did (scan_once st found now).scanner.devices = some (offDevice dev) ∧
      (dev.is_online = true →
        dlookup did (scan_once st found now).pm.device_ports = none)) ∧
    (∀ (st : ScanSt) (found : List ScanProbe) (now : Int) (did : String)
        (dev : ScannedDevice),
      NodupKeys st.scanner.devices →
      dlookup did st.scanner.devices = some dev →
      did ∈ found.map (fun pr => generate_device_id pr.port) →
      ∃ d2, dlookup did (scan_once st found now).scanner.devices = some d2 ∧
        d2.is_online = true) := by
  constructor
  · intro st found now did dev hwf hnd hne hdev hnf
    unfold scan_once
    have h1dev : dlookup did (found.foldl (scanFoundPort now) st).scanner.devices =
        some dev := by
      rw [FP_devices_ne now found st hnf]
      exact hdev
    have h1wf : PMWF (found.foldl (scanFoundPort now) st).pm := FP_pm_wf now found st hwf
    have h1nd : NodupKeys (found.foldl (scanFoundPort now) st).scanner.devices :=
      FP_nodup now found st hnd
    obtain ⟨L1, L2, hsplit⟩ := List.append_of_mem (mem_of_dlookup_eq_some h1dev)
    have hkeys : (dkeys L1 ++ did :: dkeys L2).Nodup := by
      have hx := h1nd
      rw [hsplit] at hx
      simpa [NodupKeys, dkeys] using hx
    obtain ⟨hk1, hk2⟩ := nodup_split_not_mem hkeys
    rw [hsplit]
    exact OFF_main_offline L1 L2 _ did dev h1wf hne hnf hk1 hk2 h1dev
  · intro st found now did dev hnd hdev hmem
    unfold scan_once
    obtain ⟨d1, h1, h2, h3⟩ := FP_devices_online now found st dev hdev
    have hon : d1.is_online = true := h3 hmem
    have h1nd : NodupKeys (found.foldl (scanFoundPort now) st).scanner.devices :=
      FP_nodup now found st hnd
    obtain ⟨L1, L2, hsplit⟩ := List.append_of_mem (mem_of_dlookup_eq_some h1)
    have hkeys : (dkeys L1 ++ did :: dkeys L2).Nodup := by
      have hx := h1nd
      rw [hsplit] at hx
      simpa [NodupKeys, dkeys] using hx
    obtain ⟨hk1, hk2⟩ := nodup_split_not_mem hkeys
    rw [hsplit, List.foldl_append, List.foldl_cons]
    rw [markNotSeen_not_offline (fun hc => hc.1 hmem)]
    refine ⟨d1, ?_, hon⟩
    rw [OFF_devices_ne L2 _ hk2, OFF_devices_ne L1 _ hk1]
    exact h1

/-- Witness for C8 at concrete inputs: a registered online device on port 6100
goes offline with its lease released after an empty sweep, and an offline
device reappearing on its port is flipped back online. -/
theorem C8_scan_once_witness :
    (dlookup "device_6100" (scan_once
        ⟨⟨[("device_6100", newDevice 0 ⟨6100, none⟩)], [(6100, "device_6100")]⟩,
          runPM [PMOp.alloc "device_6100" 6100 none false 0]⟩ [] 1).scanner.devices =
      some (offDevice (newDevice 0 ⟨6100, none⟩)) ∧
      ((newDevice 0 ⟨6100, none⟩).is_online = true →
        dlookup "device_6100" (scan_once
          ⟨⟨[("device_6100", newDevice 0 ⟨6100, none⟩)], [(6100, "device_6100")]⟩,
            runPM [PMOp.alloc "device_6100" 6100 none false 0]⟩ [] 1).pm.device_ports =
          none)) ∧
    (∃ d2, dlookup "device_6100" (scan_once
        ⟨⟨[("device_6100", offDevice (newDevice 0 ⟨6100, none⟩))], ([] : List (Nat × String))⟩,
          PMState.init⟩ [⟨6100, none⟩] 2).scanner.devices = some d2 ∧
      d2.is_online = true) :=
  ⟨C8_scan_once_offline_and_flip.1
      ⟨⟨[("device_6100", newDevice 0 ⟨6100, none⟩)], [(6100, "device_6100")]⟩,
        runPM [PMOp.alloc "device_6100" 6100 none false 0]⟩ [] 1 "device_6100"
      (newDevice 0 ⟨6100, none⟩)
      (pmwf_runPM [PMOp.alloc "device_6100" 6100 none false 0])
      (by simp [NodupKeys, dkeys]) (by decide) (by decide) (by decide),
   C8_scan_once_offline_and_flip.2
      ⟨⟨[("device_6100", offDevice (newDevice 0 ⟨6100, none⟩))], ([] : List (Nat × String))⟩,
        PMState.init⟩ [⟨6100, none⟩] 2 "device_6100"
      (offDevice (newDevice 0 ⟨6100, none⟩))
      (by simp [NodupKeys, dkeys]) (by decide) (by decide)⟩

/-! ## Scheduler and Job Store (`server/services/agent_service.py`)

`TaskStatus` is the `Enum` of the source; the execution loop of `_run_agent`
(vision branch, lines 1051-1215) is embedded as a fuel-indexed recursion, one
unit of fuel per remaining `step_index < max_steps` iteration.  The
concurrent `cancel_task` is modelled by its only observable effect on the
loop: the task's status has been set to CANCELLED before some checkpoint. -/

inductive TaskStatus where
  | pending
  | running
  | completed
  | failed
  | cancelled
deriving DecidableEq, Repr

/-- One Worker progress unit: `agent.step(...)` returns thinking/action plus
the flags the loop branches on. -/
structure StepResult where
  success : Bool
  finished : Bool
  message : Option String
deriving DecidableEq, Repr

/-- The fields of the in-memory `Task` object that the execution loop reads
and writes. -/
structure LoopTask where
  status : TaskStatus
  result : Option String
  error : Option String
  stepsCount : Nat
deriving DecidableEq, Repr

/-- The write `cancel_task` performs on the shared Task object (lines
1363-1365): status CANCELLED, error "Task cancelled by user". -/
def applyCancel (t : LoopTask) : LoopTask :=
  { t with status := TaskStatus.cancelled, error := some "Task cancelled by user" }

/-- Whether the concurrent `cancel_task` has already run when the loop reaches
checkpoint `i` (the cancellation flag is checked once per iteration, at the
top). -/
def cancelArrived (cancelAt : Option Nat) (i : Nat) : Bool :=
  match cancelAt with
  | some j => j ≤ i
  | none => false

/-- The `while step_index < max_steps` loop of `_run_agent` (lines
1051-1198): checkpoint the cancellation flag, abort after 5 consecutive
failures, run one Worker step, stop when it reports `finished` (with
`step_result.message or "Task completed"`). -/
def visionLoop (worker : Nat → StepResult) (cancelAt : Option Nat) :
    Nat → Nat → Nat → LoopTask → LoopTask × Option String
  | 0, _, _, t => (t, none)
  | fuel + 1, stepIndex, consecFailures, t0 =>
    let t := if cancelArrived cancelAt stepIndex then applyCancel t0 else t0
    if t.status = TaskStatus.cancelled then
      (t, some "Task cancelled by user")
    else if consecFailures ≥ 5 then
      (t, some "Task aborted due to 5 consecutive operation failures")
    else
      let r := worker stepIndex
      let cf := if r.success then 0 else consecFailures + 1
      let t1 : LoopTask := { t with stepsCount := t.stepsCount + 1 }
      if r.finished then
        (t1, some (pyOrStr r.message "Task completed"))
      else
        visionLoop worker cancelAt fuel (stepIndex + 1) cf t1

/-- `_run_agent` after the loop (lines 1200-1215): default the result message
to "Max steps reached", then set `task.status = TaskStatus.COMPLETED` and
`task.result = result_message` — unconditionally, with no check that the loop
exited because of a cancellation. -/
def runAgentVision (worker : Nat → StepResult) (maxSteps : Nat) (cancelAt : Option Nat)
    (t : LoopTask) : LoopTask :=
  let r := visionLoop worker cancelAt maxSteps 0 0 t
  { r.1 with status := TaskStatus.completed, result := some (r.2.getD "Max steps reached") }

/-- C1: evaluation of the code at the failing input.  A RUNNING task is
cancelled before the loop's first checkpoint (`cancel_task` has set status
CANCELLED); the loop duly stops with "Task cancelled by user" — and then
line 1213 overwrites the status with COMPLETED, so the run ends `completed`
with result "Task cancelled by user", contradicting the claim that no later
operation changes a Cancelled status. -/
theorem C1_cancel_overwritten_by_completion :
    (runAgentVision (fun _ => ⟨true, true, some "ok"⟩) 100 (some 0)
      ⟨TaskStatus.running, none, none, 0⟩).status = TaskStatus.completed ∧
    (runAgentVision (fun _ => ⟨true, true, some "ok"⟩) 100 (some 0)
      ⟨TaskStatus.running, none, none, 0⟩).result = some "Task cancelled by user" := by
  decide

/-- Status-level view of the hybrid Job Store: `hot` is
`AgentService.running_tasks` (task id ↦ the shared Task object's current
status) and `dbt` is the durable `tasks` table (task id ↦ persisted
status). -/
structure SvcState where
  hot : List (String × TaskStatus)
  dbt : List (String × TaskStatus)
deriving DecidableEq, Repr

def SvcState.initial : SvcState := ⟨[], []⟩

theorem dlookup_dreplace_self_eq {K V : Type} [DecidableEq K] (k : K) (v : V)
    (l : List (K × V)) :
    dlookup k (dreplace k v l) = (dlookup k l).map (fun _ => v) := by
  induction l with
  | nil => rfl
  | cons kv rest ih =>
    by_cases hk : kv.1 = k
    · simp [dreplace, hk]
    · simp [dreplace, hk, ih]

/-- `AgentService._persist_task_to_db`: update the existing row, or create a
fresh one via `crud.create_task` — which writes the column defaults, so a
newly created row has status "pending" regardless of the in-memory status. -/
def persist_task_to_db (dbt : List (String × TaskStatus)) (tid : String)
    (st : TaskStatus) : List (String × TaskStatus) :=
  if (dlookup tid dbt).isSome then dreplace tid st dbt
  else dinsert tid TaskStatus.pending dbt

theorem persist_lookup_self (dbt : List (String × TaskStatus)) (tid : String)
    (st : TaskStatus) :
    dlookup tid (persist_task_to_db dbt tid st) =
      if (dlookup tid dbt).isSome then some st else some TaskStatus.pending := by
  unfold persist_task_to_db
  by_cases h : (dlookup tid dbt).isSome
  · rw [if_pos h, if_pos h, dlookup_dreplace_self h]
  · rw [if_neg h, if_neg h, dlookup_dinsert_self]

theorem persist_lookup_ne {dbt : List (String × TaskStatus)} {tid k : String}
    (st : TaskStatus) (hne : k ≠ tid) :
    dlookup k (persist_task_to_db dbt tid st) = dlookup k dbt := by
  unfold persist_task_to_db
  by_cases h : (dlookup tid dbt).isSome
  · rw [if_pos h]
    exact dlookup_dreplace_ne _ hne
  · rw [if_neg h]
    exact dlookup_dinsert_ne _ _ hne

/-- `AgentService.create_task`: the task is persisted first (`await
self._persist_task_to_db(task)`, which re-raises on failure, so a failed
durable write leaves `running_tasks` untouched), then inserted into the hot
tier with status PENDING. -/
def svc_create_task (s : SvcState) (tid : String) (persistOk : Bool) : SvcState :=
  if persistOk then
    ⟨dinsert tid TaskStatus.pending s.hot, persist_task_to_db s.dbt tid TaskStatus.pending⟩
  else s

/-- `AgentService.execute_task`: only a hot-tier PENDING task with a device
available starts; the status flips to RUNNING in memory and the transition is
persisted synchronously via `crud.update_task`. -/
def svc_execute_task (s : SvcState) (tid : String) (deviceOk : Bool) : SvcState × Bool :=
  match dlookup tid s.hot with
  | none => (s, false)
  | some st =>
    if st ≠ TaskStatus.pending then (s, false)
    else if deviceOk = false then (s, false)
    else (⟨dreplace tid TaskStatus.running s.hot, dreplace tid TaskStatus.running s.dbt⟩, true)

/-- The tail of `_run_agent`: the run ends COMPLETED (or FAILED when an
exception was raised); the finally block persists the final status via
`crud.update_task`, and the eviction call `_cleanup_completed_task` is
commented out (line 1328), so the terminal task stays in `running_tasks`. -/
def svc_run_agent_finish (s : SvcState) (tid : String) (raised : Bool) : SvcState :=
  ⟨dreplace tid (if raised then TaskStatus.failed else TaskStatus.completed) s.hot,
   dreplace tid (if raised then TaskStatus.failed else TaskStatus.completed) s.dbt⟩

/-- `AgentService.cancel_task`: only PENDING/RUNNING tasks may be cancelled;
the shared Task object's status is set CANCELLED, persisted synchronously,
and the task is popped from `running_tasks` (lines 1361-1386). -/
def svc_cancel_task (s : SvcState) (tid : String) : SvcState × Bool :=
  match dlookup tid s.hot with
  | none => (s, false)
  | some st =>
    if st = TaskStatus.pending ∨ st = TaskStatus.running then
      (⟨derase tid (dreplace tid TaskStatus.cancelled s.hot),
        persist_task_to_db s.dbt tid TaskStatus.cancelled⟩, true)
    else (s, false)

/-- `AgentService._cleanup_completed_task` (live caller: the rule-engine
direct-execution path, line 748): final persist, then removal from memory. -/
def svc_cleanup_completed_task (s : SvcState) (tid : String) : SvcState :=
  match dlookup tid s.hot with
  | none => s
  | some st => ⟨derase tid s.hot, persist_task_to_db s.dbt tid st⟩

/-- `AgentService.get_task_async`: hot tier first, durable fallback. -/
def svc_get_task (s : SvcState) (tid : String) : Option TaskStatus :=
  match dlookup tid s.hot with
  | some st => some st
  | none => dlookup tid s.dbt

/-- A (simulated) restart empties the in-process map; the durable tier
survives. -/
def svc_restart (s : SvcState) : SvcState := ⟨[], s.dbt⟩

inductive SvcOp where
  | create (tid : String) (persistOk : Bool)
  | execute (tid : String) (deviceOk : Bool)
  | finish (tid : String) (raised : Bool)
  | cancel (tid : String)
  | cleanup (tid : String)

def SvcOp.apply : SvcOp → SvcState → SvcState
  | .create tid ok, s => svc_create_task s tid ok
  | .execute tid ok, s => (svc_execute_task s tid ok).1
  | .finish tid r, s => svc_run_agent_finish s tid r
  | .cancel tid, s => (svc_cancel_task s tid).1
  | .cleanup tid, s => svc_cleanup_completed_task s tid

def runSvc (ops : List SvcOp) : SvcState :=
  ops.foldl (fun s op => op.apply s) SvcState.initial

/-- C3: evaluation of the code at the failing input.  A task created,
started, and finished successfully by the Worker remains in the hot tier
(`running_tasks`) with terminal status COMPLETED, because the eviction call
in the finally block of `_run_agent` is commented out. -/
theorem C3_completed_task_stays_in_hot_tier :
    dlookup "t1" (runSvc [SvcOp.create "t1" true, SvcOp.execute "t1" true,
      SvcOp.finish "t1" false]).hot = some TaskStatus.completed := by
  decide

/-- A job visible in the hot tier always has a durable record. -/
def HotSub (s : SvcState) : Prop :=
  ∀ tid, (dlookup tid s.hot).isSome = true → (dlookup tid s.dbt).isSome = true

theorem isSome_map {A B : Type} (f : A → B) (o : Option A) :
    (o.map f).isSome = o.isSome := by
  cases o <;> rfl

theorem svc_execute_eq_of_none {s : SvcState} {tid : String} (ok : Bool)
    (hst : dlookup tid s.hot = none) : svc_execute_task s tid ok = (s, false) := by
  simp [svc_execute_task, hst]

theorem svc_execute_eq_not_pending {s : SvcState} {tid : String} {st : TaskStatus} (ok : Bool)
    (hst : dlookup tid s.hot = some st) (h1 : st ≠ TaskStatus.pending) :
    svc_execute_task s tid ok = (s, false) := by
  simp [svc_execute_task, hst, h1]

theorem svc_execute_eq_no_device {s : SvcState} {tid : String} {st : TaskStatus}
    (hst : dlookup tid s.hot = some st) : svc_execute_task s tid false = (s, false) := by
  simp [svc_execute_task, hst]

theorem svc_execute_eq_ok {s : SvcState} {tid : String}
    (hst : dlookup tid s.hot = some TaskStatus.pending) :
    svc_execute_task s tid true =
      (⟨dreplace tid TaskStatus.running s.hot, dreplace tid TaskStatus.running s.dbt⟩,
        true) := by
  simp [svc_execute_task, hst]

theorem svc_cancel_eq_of_none {s : SvcState} {tid : String}
    (hst : dlookup tid s.hot = none) : svc_cancel_task s tid = (s, false) := by
  simp [svc_cancel_task, hst]

theorem svc_cancel_eq_active {s : SvcState} {tid : String} {st : TaskStatus}
    (hst : dlookup tid s.hot = some st)
    (h1 : st = TaskStatus.pending ∨ st = TaskStatus.running) :
    svc_cancel_task s tid =
      (⟨derase tid (dreplace tid TaskStatus.cancelled s.hot),
        persist_task_to_db s.dbt tid TaskStatus.cancelled⟩, true) := by
  simp [svc_cancel_task, hst, h1]

theorem svc_cancel_eq_terminal {s : SvcState} {tid : String} {st : TaskStatus}
    (hst : dlookup tid s.hot = some st)
    (h1 : ¬(st = TaskStatus.pending ∨ st = TaskStatus.running)) :
    svc_cancel_task s tid = (s, false) := by
  simp [svc_cancel_task, hst, h1]

theorem svc_cleanup_eq_of_none {s : SvcState} {tid : String}
    (hst : dlookup tid s.hot = none) : svc_cleanup_completed_task s tid = s := by
  simp [svc_cleanup_completed_task, hst]

theorem svc_cleanup_eq_some {s : SvcState} {tid : String} {st : TaskStatus}
    (hst : dlookup tid s.hot = some st) :
    svc_cleanup_completed_task s tid =
      ⟨derase tid s.hot, persist_task_to_db s.dbt tid st⟩ := by
  simp [svc_cleanup_completed_task, hst]

theorem hotSub_create_state {s : SvcState} (h : HotSub s) (tid : String) :
    HotSub ⟨dinsert tid TaskStatus.pending s.hot,
      persist_task_to_db s.dbt tid TaskStatus.pending⟩ := by
  intro k hk
  dsimp at hk ⊢
  by_cases hkt : k = tid
  · subst hkt
    rw [persist_lookup_self]
    split <;> simp
  · rw [dlookup_dinsert_ne _ _ hkt] at hk
    rw [persist_lookup_ne _ hkt]
    exact h k hk

theorem hotSub_dreplace {s : SvcState} (h : HotSub s) (tid : String) (a b : TaskStatus) :
    HotSub ⟨dreplace tid a s.hot, dreplace tid b s.dbt⟩ := by
  intro k hk
  dsimp at hk ⊢
  by_cases hkt : k = tid
  · subst hkt
    rw [dlookup_dreplace_self_eq, isSome_map] at hk ⊢
    exact h _ hk
  · rw [dlookup_dreplace_ne _ hkt] at hk
    rw [dlookup_dreplace_ne _ hkt]
    exact h _ hk

theorem hotSub_erase_persist {s : SvcState} (h : HotSub s) (tid : String)
    (st : TaskStatus) (hot1 : List (String × TaskStatus))
    (hhot : ∀ k, k ≠ tid → dlookup k hot1 = dlookup k s.hot)
    (hself : dlookup tid hot1 = none) :
    HotSub ⟨hot1, persist_task_to_db s.dbt tid st⟩ := by
  intro k hk
  dsimp at hk ⊢
  by_cases hkt : k = tid
  · subst hkt
    rw [hself] at hk
    simp at hk
  · rw [hhot k hkt] at hk
    rw [persist_lookup_ne _ hkt]
    exact h k hk

theorem hotSub_step {s : SvcState} (op : SvcOp) (h : HotSub s) : HotSub (op.apply s) := by
  cases op with
  | create tid ok =>
    cases ok with
    | false => exact h
    | true =>
      have he : SvcOp.apply (.create tid true) s =
          ⟨dinsert tid TaskStatus.pending s.hot,
            persist_task_to_db s.dbt tid TaskStatus.pending⟩ := by
        dsimp [SvcOp.apply, svc_create_task]
      rw [he]
      exact hotSub_create_state h tid
  | execute tid ok =>
    show HotSub (svc_execute_task s tid ok).1
    cases hst : dlookup tid s.hot with
    | none => rw [svc_execute_eq_of_none ok hst]; exact h
    | some st =>
      by_cases h1 : st = TaskStatus.pending
      · cases ok with
        | false => rw [svc_execute_eq_no_device hst]; exact h
        | true =>
          subst h1
          rw [svc_execute_eq_ok hst]
          exact hotSub_dreplace h tid _ _
      · rw [svc_execute_eq_not_pending ok hst h1]
        exact h
  | finish tid r =>
    show HotSub (svc_run_agent_finish s tid r)
    unfold svc_run_agent_finish
    exact hotSub_dreplace h tid _ _
  | cancel tid =>
    show HotSub (svc_cancel_task s tid).1
    cases hst : dlookup tid s.hot with
    | none => rw [svc_cancel_eq_of_none hst]; exact h
    | some st =>
      by_cases h1 : st = TaskStatus.pending ∨ st = TaskStatus.running
      · rw [svc_cancel_eq_active hst h1]
        apply hotSub_erase_persist h tid TaskStatus.cancelled
        · intro k hkt
          rw [dlookup_derase_ne _ hkt, dlookup_dreplace_ne _ hkt]
        · exact dlookup_derase_self _ _
      · rw [svc_cancel_eq_terminal hst h1]
        exact h
  | cleanup tid =>
    show HotSub (svc_cleanup_completed_task s tid)
    cases hst : dlookup tid s.hot with
    | none => rw [svc_cleanup_eq_of_none hst]; exact h
    | some st =>
      rw [svc_cleanup_eq_some hst]
      apply hotSub_erase_persist h tid st
      · intro k hkt
        rw [dlookup_derase_ne _ hkt]
      · exact dlookup_derase_self _ _

theorem hotSub_runSvc (ops : List SvcOp) : HotSub (runSvc ops) := by
  have hgen : ∀ (l : List SvcOp) (s : SvcState), HotSub s →
      HotSub (l.foldl (fun s op => op.apply s) s) := by
    intro l
    induction l with
    | nil => intro s h; exact h
    | cons op rest ih => intro s h; exact ih _ (hotSub_step op h)
  exact hgen ops SvcState.initial (by intro tid hk; simp [SvcState.initial, dlookup] at hk)

/-- C5: write-through — in every reachable Job Store state, a job present in
the hot tier already has a durable record; and a `Create` immediately
followed by a simulated restart that empties the hot tier still finds the job
(as a PENDING record) through `get_task_async`. -/
theorem C5_create_durable_before_hot :
    (∀ (ops : List SvcOp) (tid : String),
      (dlookup tid (runSvc ops).hot).isSome = true →
      (dlookup tid (runSvc ops).dbt).isSome = true) ∧
    (∀ (ops : List SvcOp) (tid : String),
      svc_get_task (svc_restart (svc_create_task (runSvc ops) tid true)) tid =
        some TaskStatus.pending) := by
  constructor
  · intro ops tid
    exact hotSub_runSvc ops tid
  · intro ops tid
    dsimp [svc_create_task, svc_restart, svc_get_task]
    rw [persist_lookup_self]
    split <;> rfl

/-- Witness for C5 at concrete inputs: after creating "t1" the hot-tier entry
has a durable record, and `Get` after a restart still returns it. -/
theorem C5_create_durable_before_hot_witness :
    ((dlookup "t1" (runSvc [SvcOp.create "t1" true]).hot).isSome = true →
      (dlookup "t1" (runSvc [SvcOp.create "t1" true]).dbt).isSome = true) ∧
    svc_get_task (svc_restart (svc_create_task (runSvc [SvcOp.create "t1" true])
      "t1" true)) "t1" = some TaskStatus.pending :=
  ⟨C5_create_durable_before_hot.1 [SvcOp.create "t1" true] "t1",
   C5_create_durable_before_hot.2 [SvcOp.create "t1" true] "t1"⟩

/-! ## Recovery (`AgentService.recover_tasks` and `server/database/crud.py`)

The durable `tasks` table is a list of rows; the columns recovery reads and
writes are kept, with timestamps as `Int` seconds. -/

structure DBTask where
  task_id : String
  status : String
  created_at : Int
  completed_at : Option Int
  error : Option String
deriving DecidableEq, Repr

/-- Descending insertion by `created_at` — the `ORDER BY created_at DESC` of
`crud.list_tasks`. -/
def insertDescByCreated (t : DBTask) : List DBTask → List DBTask
  | [] => [t]
  | u :: us =>
    if u.created_at ≤ t.created_at then t :: u :: us
    else u :: insertDescByCreated t us

def sortByCreatedDesc (l : List DBTask) : List DBTask :=
  l.foldr insertDescByCreated []

/-- `crud.list_tasks`: optional status filter (Python `if status:` —
truthiness), newest first, then offset and limit; the limit defaults to 100
and `recover_tasks` calls are made without overriding it. -/
def list_tasks (dbl : List DBTask) (status : Option String) (limit offset : Nat) :
    List DBTask :=
  ((sortByCreatedDesc (if strTruthy status then
      dbl.filter (fun t => t.status = status.getD "") else dbl)).drop offset).take limit

/-- `crud.update_task` restricted to the fields recovery writes: status
"failed", an error diagnostic, and `completed_at`. -/
def update_task_failed (dbl : List DBTask) (tid : String) (err : String)
    (completed_at : Int) : List DBTask :=
  dbl.map (fun t => if t.task_id = tid then
    { t with status := "failed", error := some err, completed_at := some completed_at }
    else t)

/-- `AgentService.recover_tasks` (lines 444-498): mark every listed RUNNING
task failed with the fixed restart diagnostic, then mark every listed PENDING
task created more than one hour (3600 s) before `now` failed with the
staleness diagnostic.  Both queries go through `crud.list_tasks`, hence
return at most its default limit of 100 rows. -/
def recover_tasks (dbl : List DBTask) (now : Int) : List DBTask :=
  let dbl1 := (list_tasks dbl (some "running") 100 0).foldl
    (fun acc t =>
      update_task_failed acc t.task_id "Task flow interrupted (server restart)" now) dbl
  (list_tasks dbl1 (some "pending") 100 0).foldl
    (fun acc t =>
      if t.created_at < now - 3600 then
        update_task_failed acc t.task_id "Task timeout (stale pending)" now
      else acc) dbl1

set_option maxRecDepth 16000 in
/-- C4: evaluation of the code at the failing input.  With 101 RUNNING
orphans (task ids "0".."100", created at seconds 0..100), one recovery pass
leaves the oldest orphan ("0") still RUNNING — `crud.list_tasks` silently
caps the query at its default limit of 100 — while a newer orphan ("100") is
correctly failed, contradicting the claim that the pass fails every
Durable-Tier RUNNING job. -/
theorem C4_recovery_misses_oldest_of_101 :
    ((recover_tasks ((List.range 101).map
        (fun i => ⟨toString i, "running", (i : Int), none, none⟩)) 10000).find?
      (fun t => t.task_id == "0")).map DBTask.status = some "running" ∧
    ((recover_tasks ((List.range 101).map
        (fun i => ⟨toString i, "running", (i : Int), none, none⟩)) 10000).find?
      (fun t => t.task_id == "100")).map DBTask.status = some "failed" := by
  decide

end PhoneAgent
